import Mathlib

/-!
Verification of the UZH-Event-Tool backend (Express + Prisma, TypeScript).

This file gives a shallow embedding of the event/registration core of the
repository and proves the specification claims about it.

Conventions of the embedding:
* JS timestamps (`Date.getTime()`, milliseconds) are `Int`.
* Database tables are Lean lists; `prisma.*.findUnique` is `List.find?`.
* Fallible handlers return an explicit response value paired with the
  post-state of the store, so that "HTTP status x and the store unchanged"
  becomes an equation on that pair.
-/

namespace EventTool

/-! ## Image-list codec (src/src/utils/event.ts)

The source stores an event's image references as a single string column and
converts with `JSON.stringify` / `JSON.parse`:

```ts
function parseImages(images: string): string[] {
  if (!images) return [];
  try {
    const parsed = JSON.parse(images);
    return Array.isArray(parsed) ? parsed.filter((item) => typeof item === "string") : [];
  } catch {
    return images.split(",").map((entry) => entry.trim()).filter(Boolean);
  }
}
function stringifyImages(images: string[]): string {
  return JSON.stringify(images);
}
```

`JSON.stringify` on an array of strings emits `[`, the elements quoted and
escaped per ECMA-404 (`"` and `\` escaped, control characters as `\b \t \n
\f \r` or `\u00xx` with lowercase hex), separated by `,` with no
whitespace, then `]`. We model `JSON.parse` for the fragment of JSON texts
that denote arrays of strings, which covers everything `stringifyImages`
can produce; any other text is treated as a parse failure and reaches the
same comma-splitting fallback the source reaches on invalid JSON. (On a
valid JSON text that is not an array of strings the source would instead
return `[]` or drop the non-string entries; no stored value and no input
exercised by the claims has that shape.) -/

/-- Lowercase hex digit for a value below 16, as emitted by
`JSON.stringify` in `\u00xx` escapes. -/
def hexDigitChar (n : Nat) : Char :=
  if n < 10 then Char.ofNat (48 + n) else Char.ofNat (87 + n)

/-- Escape of one character inside a JSON string literal, following
ECMA-262 QuoteJSONString (the algorithm behind `JSON.stringify`). -/
def escapeChar (c : Char) : List Char :=
  if c = '"' then ['\\', '"']
  else if c = '\\' then ['\\', '\\']
  else if c.toNat = 8 then ['\\', 'b']
  else if c.toNat = 9 then ['\\', 't']
  else if c.toNat = 10 then ['\\', 'n']
  else if c.toNat = 12 then ['\\', 'f']
  else if c.toNat = 13 then ['\\', 'r']
  else if c.toNat < 32 then
    ['\\', 'u', '0', '0', hexDigitChar (c.toNat / 16), hexDigitChar (c.toNat % 16)]
  else [c]

/-- Escape of a whole string body (no surrounding quotes). -/
def escapeList (s : List Char) : List Char :=
  (s.map escapeChar).flatten

/-- A JSON string literal: opening quote, escaped body, closing quote. -/
def quoteJson (s : List Char) : List Char :=
  '"' :: (escapeList s ++ ['"'])

/-- Elements after the first, each preceded by a comma. -/
def encodeElemsRest : List (List Char) → List Char
  | [] => []
  | s :: ss => ',' :: (quoteJson s ++ encodeElemsRest ss)

/-- Comma-separated JSON string literals (the inside of the array). -/
def encodeElems : List (List Char) → List Char
  | [] => []
  | s :: ss => quoteJson s ++ encodeElemsRest ss

/-- Model of `JSON.stringify` on an array of strings: exactly the text the
JS builtin produces (no whitespace, elements in order). -/
def stringifyImages (images : List String) : String :=
  ⟨'[' :: (encodeElems (images.map String.data) ++ [']'])⟩

/-- Numeric value of a hex digit accepted in a `\uXXXX` escape. -/
def hexVal (c : Char) : Option Nat :=
  if 48 ≤ c.toNat ∧ c.toNat ≤ 57 then some (c.toNat - 48)
  else if 97 ≤ c.toNat ∧ c.toNat ≤ 102 then some (c.toNat - 87)
  else if 65 ≤ c.toNat ∧ c.toNat ≤ 70 then some (c.toNat - 55)
  else none

/-- Prepend a decoded character to the string part of a parser result. -/
def consOpt (c : Char) (r : Option (List Char × List Char)) :
    Option (List Char × List Char) :=
  r.map (fun p => (c :: p.1, p.2))

/-- Parse the body of a JSON string literal after its opening quote, up to
and including the closing quote; returns the decoded body and the
remaining input. Faithful to `JSON.parse`: the standard escapes, `\uXXXX`
hex escapes, and a ban on raw control characters. -/
def parseStringBody : List Char → Option (List Char × List Char)
  | [] => none
  | c :: rest =>
    if c = '"' then some ([], rest)
    else if c = '\\' then
      match rest with
      | [] => none
      | e :: rs =>
        if e = '"' then consOpt '"' (parseStringBody rs)
        else if e = '\\' then consOpt '\\' (parseStringBody rs)
        else if e = '/' then consOpt '/' (parseStringBody rs)
        else if e = 'b' then consOpt (Char.ofNat 8) (parseStringBody rs)
        else if e = 'f' then consOpt (Char.ofNat 12) (parseStringBody rs)
        else if e = 'n' then consOpt (Char.ofNat 10) (parseStringBody rs)
        else if e = 'r' then consOpt (Char.ofNat 13) (parseStringBody rs)
        else if e = 't' then consOpt (Char.ofNat 9) (parseStringBody rs)
        else if e = 'u' then
          match rs with
          | a :: b :: c2 :: d :: rs2 =>
            match hexVal a, hexVal b, hexVal c2, hexVal d with
            | some va, some vb, some vc, some vd =>
              consOpt (Char.ofNat (((va * 16 + vb) * 16 + vc) * 16 + vd))
                (parseStringBody rs2)
            | _, _, _, _ => none
          | _ => none
        else none
    else if c.toNat < 32 then none
    else consOpt c (parseStringBody rest)

/-- JSON insignificant whitespace. -/
def isJsonWs (c : Char) : Bool :=
  c = ' ' || c = '\t' || c = '\n' || c = '\r'

/-- Skip insignificant whitespace, as `JSON.parse` does between tokens. -/
def skipWs : List Char → List Char
  | [] => []
  | c :: rest => if isJsonWs c then skipWs rest else c :: rest

theorem skipWs_length (l : List Char) : (skipWs l).length ≤ l.length := by
  induction l with
  | nil => simp [skipWs]
  | cons c rest ih =>
    simp only [skipWs]
    split
    · exact Nat.le_trans ih (Nat.le_succ _)
    · exact Nat.le_refl _

theorem consOpt_eq_some {c : Char} {o : Option (List Char × List Char)}
    {s r : List Char} :
    consOpt c o = some (s, r) ↔ ∃ s', o = some (s', r) ∧ s = c :: s' := by
  cases o with
  | none => simp [consOpt]
  | some p =>
    cases p with
    | mk s0 r0 =>
      simp only [consOpt, Option.map_some', Option.some.injEq, Prod.mk.injEq]
      constructor
      · rintro ⟨rfl, rfl⟩; exact ⟨s0, ⟨rfl, rfl⟩, rfl⟩
      · rintro ⟨s', ⟨h1, h2⟩, rfl⟩
        exact ⟨by rw [h1], h2⟩

theorem parseStringBody_length {l s r : List Char}
    (h : parseStringBody l = some (s, r)) : r.length < l.length := by
  induction l using parseStringBody.induct generalizing s r
  case case1 =>
    rw [parseStringBody.eq_def] at h
    simp at h
  case case2 rs =>
    rw [parseStringBody.eq_def] at h
    simp at h
    obtain ⟨rfl, rfl⟩ := h
    simp
  case case3 hx =>
    rw [parseStringBody.eq_def] at h
    simp at h
  case case13 a b c2 d rs2 hfail hx1 hx2 hx3 hx4 hx5 hx6 hx7 hx8 hx9 =>
    rcases ha : hexVal a with _ | va <;> rcases hb : hexVal b with _ | vb <;>
      rcases hc : hexVal c2 with _ | vc <;> rcases hd : hexVal d with _ | vd <;>
      rw [parseStringBody.eq_def] at h <;>
      simp [ha, hb, hc, hd] at h
    exact (hfail va vb vc vd ha hb hc hd).elim
  case case14 rs hshort hx1 hx2 hx3 hx4 hx5 hx6 hx7 hx8 hx9 =>
    rcases rs with _ | ⟨a, _ | ⟨b, _ | ⟨c2, _ | ⟨d, rs2⟩⟩⟩⟩
    · rw [parseStringBody.eq_def] at h; simp at h
    · rw [parseStringBody.eq_def] at h; simp at h
    · rw [parseStringBody.eq_def] at h; simp at h
    · rw [parseStringBody.eq_def] at h; simp at h
    · exact (hshort _ _ _ _ _ rfl).elim
  case case15 e rs n1 n2 n3 n4 n5 n6 n7 n8 n9 n10 =>
    rw [parseStringBody.eq_def] at h
    simp [n1, n2, n3, n4, n5, n6, n7, n8, n9] at h
  case case16 e rs n1 n2 hlt =>
    rw [parseStringBody.eq_def] at h
    simp [n1, n2, hlt] at h
  case case12 a b c2 d rs2 va vb vc vd hvd hvc hvb hva hx1 hx2 hx3 hx4 hx5 hx6 hx7 hx8 hx9 ih =>
    rw [parseStringBody.eq_def] at h
    simp [hva, hvb, hvc, hvd] at h
    rw [consOpt_eq_some] at h
    obtain ⟨s', hp, rfl⟩ := h
    have := ih hp
    simp only [List.length_cons]
    omega
  case case17 e rs n1 n2 n3 ih =>
    rw [parseStringBody.eq_def] at h
    simp [n1, n2, n3] at h
    rw [consOpt_eq_some] at h
    obtain ⟨s', hp, rfl⟩ := h
    have := ih hp
    simp only [List.length_cons]
    omega
  all_goals
    · rename_i ih
      rw [parseStringBody.eq_def] at h
      simp at h
      rw [consOpt_eq_some] at h
      obtain ⟨s', hp, rfl⟩ := h
      have := ih hp
      simp only [List.length_cons]
      omega

theorem hexVal_hexDigitChar {n : Nat} (hn : n < 16) :
    hexVal (hexDigitChar n) = some n := by
  have hall : ∀ m, m < 16 → hexVal (hexDigitChar m) = some m := by decide
  exact hall n hn

/-- Decoding inverts escaping: reading the escaped body of `s` followed by
the closing quote consumes exactly that text and returns `s`. -/
theorem parseStringBody_escape (s rest : List Char) :
    parseStringBody (escapeList s ++ '"' :: rest) = some (s, rest) := by
  induction s with
  | nil =>
    rw [show escapeList [] = [] from rfl, List.nil_append, parseStringBody.eq_def]
    simp
  | cons c s ih =>
    have hesc : escapeList (c :: s) = escapeChar c ++ escapeList s := by
      simp [escapeList]
    rw [hesc, List.append_assoc]
    by_cases h1 : c = '"'
    · subst h1
      rw [show escapeChar '"' = ['\\', '"'] from rfl, parseStringBody.eq_def]
      simp [ih, consOpt]
    · by_cases h2 : c = '\\'
      · subst h2
        rw [show escapeChar '\\' = ['\\', '\\'] from rfl, parseStringBody.eq_def]
        simp [ih, consOpt]
      · by_cases h3 : c.toNat = 8
        · have hc : Char.ofNat 8 = c := by rw [← h3, Char.ofNat_toNat]
          have he : escapeChar c = ['\\', 'b'] := by
            simp [escapeChar, h1, h2, h3]
          rw [he, parseStringBody.eq_def]
          simp [ih, consOpt]
          all_goals exact hc
        · by_cases h4 : c.toNat = 9
          · have hc : Char.ofNat 9 = c := by rw [← h4, Char.ofNat_toNat]
            have he : escapeChar c = ['\\', 't'] := by
              simp [escapeChar, h1, h2, h3, h4]
            rw [he, parseStringBody.eq_def]
            simp [ih, consOpt]
            all_goals exact hc
          · by_cases h5 : c.toNat = 10
            · have hc : Char.ofNat 10 = c := by rw [← h5, Char.ofNat_toNat]
              have he : escapeChar c = ['\\', 'n'] := by
                simp [escapeChar, h1, h2, h3, h4, h5]
              rw [he, parseStringBody.eq_def]
              simp [ih, consOpt]
              all_goals exact hc
            · by_cases h6 : c.toNat = 12
              · have hc : Char.ofNat 12 = c := by rw [← h6, Char.ofNat_toNat]
                have he : escapeChar c = ['\\', 'f'] := by
                  simp [escapeChar, h1, h2, h3, h4, h5, h6]
                rw [he, parseStringBody.eq_def]
                simp [ih, consOpt]
                all_goals exact hc
              · by_cases h7 : c.toNat = 13
                · have hc : Char.ofNat 13 = c := by rw [← h7, Char.ofNat_toNat]
                  have he : escapeChar c = ['\\', 'r'] := by
                    simp [escapeChar, h1, h2, h3, h4, h5, h6, h7]
                  rw [he, parseStringBody.eq_def]
                  simp [ih, consOpt]
                  all_goals exact hc
                · by_cases h8 : c.toNat < 32
                  · have he : escapeChar c =
                        ['\\', 'u', '0', '0', hexDigitChar (c.toNat / 16),
                          hexDigitChar (c.toNat % 16)] := by
                      simp [escapeChar, h1, h2, h3, h4, h5, h6, h7, h8]
                    have hva : hexVal (hexDigitChar (c.toNat / 16)) =
                        some (c.toNat / 16) :=
                      hexVal_hexDigitChar (by omega)
                    have hvb : hexVal (hexDigitChar (c.toNat % 16)) =
                        some (c.toNat % 16) :=
                      hexVal_hexDigitChar (Nat.mod_lt _ (by omega))
                    have hzero : hexVal '0' = some 0 := by decide
                    have hnum : ((0 * 16 + 0) * 16 + c.toNat / 16) * 16 +
                        c.toNat % 16 = c.toNat := by omega
                    rw [he, parseStringBody.eq_def]
                    simp [hzero, hva, hvb, ih, consOpt]
                    all_goals
                      · have h9 : c.toNat / 16 * 16 + c.toNat % 16 = c.toNat := by
                          omega
                        rw [h9, Char.ofNat_toNat]
                  · have he : escapeChar c = [c] := by
                      simp [escapeChar, h1, h2, h3, h4, h5, h6, h7, h8]
                    rw [he, parseStringBody.eq_def]
                    simp [h1, h2, h8, ih, consOpt]

/-- Parse one array element: optional whitespace, then a JSON string
literal. -/
def parseElem (l : List Char) : Option (List Char × List Char) :=
  match skipWs l with
  | [] => none
  | c :: rest => if c = '"' then parseStringBody rest else none

theorem parseElem_length {l s r : List Char}
    (h : parseElem l = some (s, r)) : r.length < l.length := by
  unfold parseElem at h
  rcases hsw : skipWs l with _ | ⟨c, rest⟩ <;> rw [hsw] at h
  · simp at h
  · by_cases hc : c = '"'
    · subst hc
      simp at h
      have h1 := parseStringBody_length h
      have h2 := skipWs_length l
      rw [hsw] at h2
      simp only [List.length_cons] at h2
      omega
    · simp [hc] at h

/-- Parse the continuation of an array after one element has been read:
either a closing bracket, or a comma followed by another element and the
rest of the array. -/
def parseElemsRest (l : List Char) : Option (List (List Char) × List Char) :=
  match hsw : skipWs l with
  | [] => none
  | c :: rest =>
    if c = ']' then some ([], rest)
    else if c = ',' then
      match hpe : parseElem rest with
      | none => none
      | some (s, r) =>
        match parseElemsRest r with
        | none => none
        | some (ss, r2) => some (s :: ss, r2)
    else none
termination_by l.length
decreasing_by
  have h1 := parseElem_length hpe
  have h2 := skipWs_length l
  rw [hsw] at h2
  simp only [List.length_cons] at h2
  omega

/-- Parse a complete JSON text denoting an array of strings (with nothing
but whitespace allowed after it). -/
def parseJsonStringArray (l : List Char) : Option (List (List Char)) :=
  match skipWs l with
  | [] => none
  | c :: rest =>
    if c = '[' then
      match skipWs rest with
      | [] => none
      | c2 :: rest2 =>
        if c2 = ']' then if skipWs rest2 = [] then some [] else none
        else
          match parseElem rest with
          | none => none
          | some (s, r) =>
            match parseElemsRest r with
            | none => none
            | some (ss, tail) =>
              if skipWs tail = [] then some (s :: ss) else none
    else none

/-- Model of JavaScript `String.prototype.trim`: strip leading and
trailing whitespace. (Lean's own `String.trim` walks byte positions and
does not reduce in the kernel, so the embedding uses this equivalent
list-based definition.) -/
def jsTrim (s : String) : String :=
  ⟨((s.data.dropWhile Char.isWhitespace).reverse.dropWhile
    Char.isWhitespace).reverse⟩

/-- Model of `images.split(",").map((entry) => entry.trim()).filter(Boolean)`:
the fallback the source uses when `JSON.parse` throws. -/
def commaFallback (s : String) : List String :=
  ((s.splitOn ",").map jsTrim).filter (fun t => ¬t = "")

/-- Model of `parseImages` from src/src/utils/event.ts. An empty string is
falsy in JS, so it short-circuits to the empty list; a JSON array of
strings parses to its elements; any other input falls back to comma
splitting. -/
def parseImages (images : String) : List String :=
  if images = "" then []
  else
    match parseJsonStringArray images.data with
    | some l => l.map (fun cs => String.mk cs)
    | none => commaFallback images

/-- The `eventImageStorage` record exported by src/src/utils/event.ts. -/
structure ImageStorage where
  parse : String → List String
  stringify : List String → String

def eventImageStorage : ImageStorage :=
  { parse := parseImages, stringify := stringifyImages }

theorem skipWs_not_ws {c : Char} (l : List Char) (h : isJsonWs c = false) :
    skipWs (c :: l) = c :: l := by
  simp [skipWs, h]

theorem parseElem_quote (s rest : List Char) :
    parseElem (quoteJson s ++ rest) = some (s, rest) := by
  have hq : quoteJson s ++ rest = '"' :: (escapeList s ++ '"' :: rest) := by
    simp [quoteJson]
  rw [hq]
  unfold parseElem
  rw [skipWs_not_ws _ (by decide)]
  simp [parseStringBody_escape]

theorem parseElemsRest_encode (ss : List (List Char)) (rest : List Char) :
    parseElemsRest (encodeElemsRest ss ++ ']' :: rest) = some (ss, rest) := by
  induction ss generalizing rest with
  | nil =>
    rw [show encodeElemsRest [] = [] from rfl, List.nil_append,
      parseElemsRest.eq_def]
    rw [skipWs_not_ws _ (by decide)]
    simp
  | cons s ss ih =>
    have he : encodeElemsRest (s :: ss) ++ ']' :: rest =
        ',' :: (quoteJson s ++ (encodeElemsRest ss ++ ']' :: rest)) := by
      simp [encodeElemsRest]
    rw [he, parseElemsRest.eq_def]
    rw [skipWs_not_ws _ (by decide)]
    simp only [reduceIte]
    split
    · rename_i heq
      exact absurd heq (by decide)
    · split
      · rename_i heq
        rw [parseElem_quote] at heq
        simp at heq
      · rename_i s1 r1 heq
        rw [parseElem_quote] at heq
        simp only [Option.some.injEq, Prod.mk.injEq] at heq
        obtain ⟨rfl, rfl⟩ := heq
        simp [ih]

theorem skipWs_quote (s r : List Char) :
    skipWs (quoteJson s ++ r) = '"' :: (escapeList s ++ ('"' :: r)) := by
  have hq : quoteJson s ++ r = '"' :: (escapeList s ++ ('"' :: r)) := by
    simp [quoteJson]
  rw [hq, skipWs_not_ws _ (by decide)]

theorem parseJsonStringArray_encode (xs : List (List Char)) :
    parseJsonStringArray ('[' :: (encodeElems xs ++ [']'])) = some xs := by
  rcases xs with _ | ⟨x, xs⟩
  · rfl
  · have he : encodeElems (x :: xs) ++ [']'] =
        quoteJson x ++ (encodeElemsRest xs ++ [']']) := by
      simp [encodeElems]
    unfold parseJsonStringArray
    rw [he, skipWs_not_ws _ (by decide)]
    simp [parseElem_quote, parseElemsRest_encode, skipWs, skipWs_quote, isJsonWs]

theorem stringifyImages_ne_empty (xs : List String) : stringifyImages xs ≠ "" := by
  intro h
  have h2 : '[' :: (encodeElems (xs.map String.data) ++ [']']) = [] :=
    congrArg String.data h
  exact absurd h2 (by simp)

theorem mk_data (s : String) : String.mk s.data = s := rfl

theorem parseImages_stringifyImages (xs : List String) :
    parseImages (stringifyImages xs) = xs := by
  unfold parseImages
  rw [if_neg (stringifyImages_ne_empty xs)]
  have hd : (stringifyImages xs).data =
      '[' :: (encodeElems (xs.map String.data) ++ [']']) := rfl
  rw [hd, parseJsonStringArray_encode]
  simp only [List.map_map]
  have hcomp : ((fun cs => String.mk cs) ∘ String.data) = id := rfl
  rw [hcomp, List.map_id]

/-! ## Data model

Rows of the Prisma store touched by the event core. `Event.images` is the
raw string column (JSON-encoded list), exactly as stored. The `Db` also
tracks the set of stored image files (public upload paths) so that the
file-deletion side effects of the handlers are observable. -/

structure Event where
  id : String
  name : String
  description : String
  location : String
  startsAt : Int
  images : String
  category : String
  ownerId : String
  ownerName : String
  attendanceLimit : Int
  registrationDeadline : Int
deriving DecidableEq, Repr

structure Registration where
  userId : String
  eventId : String
  createdAt : Int
deriving DecidableEq, Repr

structure Db where
  events : List Event
  registrations : List Registration
  imageFiles : List String
deriving DecidableEq, Repr

/-- Model of `prisma.event.findUnique({ where: { id } })`. -/
def findEvent (db : Db) (eventId : String) : Option Event :=
  db.events.find? (fun e => e.id = eventId)

/-- Number of stored registrations for an event
(`prisma.registration.count({ where: { eventId } })`). -/
def registrationCount (db : Db) (eventId : String) : Nat :=
  (db.registrations.filter (fun r => r.eventId = eventId)).length

/-- Whether a (user, event) registration pair exists. -/
def hasRegistration (db : Db) (userId eventId : String) : Bool :=
  db.registrations.any (fun r => r.userId = userId && r.eventId = eventId)

/-! ## Event routes (src/src/routes/events.ts) -/

/-- The parsed request body for create/update, after the zod transforms:
`time` and `registrationDeadline` are `none` when the supplied string is
not a valid date (`Number.isNaN(value.getTime())`), otherwise the epoch
milliseconds. -/
structure EventDraft where
  name : String
  description : String
  location : String
  time : Option Int
  eventOwner : String
  category : String
  attendanceLimit : Int
  registrationDeadline : Option Int
deriving DecidableEq, Repr

/-- The field checks of `createEventSchema` other than the positivity of
`attendanceLimit` (zod: `.min`/`.max` bounds on the strings, valid dates). -/
def basicFieldsOk (d : EventDraft) : Bool :=
  1 ≤ d.name.length && d.name.length ≤ 200 &&
  1 ≤ d.description.length && d.description.length ≤ 4000 &&
  1 ≤ d.location.length && d.location.length ≤ 240 &&
  d.time.isSome &&
  1 ≤ d.eventOwner.length && d.eventOwner.length ≤ 200 &&
  1 ≤ d.category.length && d.category.length ≤ 200 &&
  d.registrationDeadline.isSome

/-- Model of `createEventSchema.safeParse` succeeding: all zod field checks
of src/src/routes/events.ts lines 79-105 (`updateEventSchema` is the same
schema). -/
def createEventSchemaCheck (d : EventDraft) : Bool :=
  basicFieldsOk d && 0 < d.attendanceLimit

/-- Model of `validateSchedule` (src/src/routes/events.ts lines 47-62). -/
def validateSchedule (startsAt registrationDeadline now : Int) :
    Option String :=
  if startsAt ≤ now then some "Event time must be in the future"
  else if registrationDeadline ≤ now then
    some "Registration deadline must be in the future"
  else if startsAt ≤ registrationDeadline then
    some "Registration deadline must be before the event start time"
  else none

/-- Responses of the event routes, tagged by their HTTP status. -/
inductive EventResponse where
  | validationError (msg : String)
  | notFound
  | forbidden
  | createdEvent (e : Event)
  | updatedEvent (e : Event)
  | deleted
  | gotEvent (e : Event)
deriving DecidableEq, Repr

/-- HTTP status code of each response, per the route handlers. -/
def EventResponse.status : EventResponse → Nat
  | .validationError _ => 400
  | .notFound => 404
  | .forbidden => 403
  | .createdEvent _ => 201
  | .updatedEvent _ => 200
  | .deleted => 204
  | .gotEvent _ => 200

/-- The public path multer-uploaded files are stored under
(`/uploads/event-images/${file.filename}`). -/
def imagePath (filename : String) : String :=
  "/uploads/event-images/" ++ filename

/-- Model of `handleCreateEvent`. `uploadedImages` are the filenames multer
wrote; on any failure the handler unlinks them (`cleanupFiles`), so the
net effect on the stored-file set is: added on success only. `newId` is
the fresh id Prisma assigns to the created row. -/
def handleCreateEvent (db : Db) (callerId callerFullName : String)
    (d : EventDraft) (uploadedImages : List String) (newId : String)
    (now : Int) : EventResponse × Db :=
  if ¬ createEventSchemaCheck d then (.validationError "Invalid input", db)
  else
    let startsAt := d.time.getD 0
    let registrationDeadline := d.registrationDeadline.getD 0
    match validateSchedule startsAt registrationDeadline now with
    | some msg => (.validationError msg, db)
    | none =>
      let imagePaths := uploadedImages.map imagePath
      let ownerName :=
        if jsTrim d.eventOwner ≠ "" then jsTrim d.eventOwner
        else if jsTrim callerFullName ≠ "" then jsTrim callerFullName
        else "Event Owner"
      let e : Event :=
        { id := newId
          name := d.name
          description := d.description
          location := d.location
          startsAt := startsAt
          images := stringifyImages imagePaths
          category := d.category
          ownerId := callerId
          ownerName := ownerName
          attendanceLimit := d.attendanceLimit
          registrationDeadline := registrationDeadline }
      (.createdEvent e,
        { db with
          events := db.events ++ [e]
          imageFiles := db.imageFiles ++ imagePaths })

/-- Model of `handleUpdateEvent`. On success the stored row is replaced;
if new images were uploaded the previous image files are unlinked
(`deleteStoredImageFiles(currentImages)`), otherwise the file set is
untouched. -/
def handleUpdateEvent (db : Db) (callerId callerFullName : String)
    (eventId : String) (d : EventDraft) (uploadedImages : List String)
    (now : Int) : EventResponse × Db :=
  if ¬ createEventSchemaCheck d then (.validationError "Invalid input", db)
  else if eventId = "" then (.validationError "Event id is required", db)
  else
    match findEvent db eventId with
    | none => (.notFound, db)
    | some existingEvent =>
      if existingEvent.ownerId ≠ callerId then (.forbidden, db)
      else
        let startsAt := d.time.getD 0
        let registrationDeadline := d.registrationDeadline.getD 0
        match validateSchedule startsAt registrationDeadline now with
        | some msg => (.validationError msg, db)
        | none =>
          let currentImages := parseImages existingEvent.images
          let imagePaths :=
            if uploadedImages ≠ [] then uploadedImages.map imagePath
            else currentImages
          let updated : Event :=
            { existingEvent with
              name := d.name
              description := d.description
              location := d.location
              startsAt := startsAt
              images := stringifyImages imagePaths
              category := d.category
              attendanceLimit := d.attendanceLimit
              registrationDeadline := registrationDeadline
              ownerName :=
                if jsTrim d.eventOwner ≠ "" then jsTrim d.eventOwner
                else if jsTrim callerFullName ≠ "" then jsTrim callerFullName
                else existingEvent.ownerName }
          (.updatedEvent updated,
            { db with
              events :=
                db.events.map (fun e => if e.id = eventId then updated else e)
              imageFiles :=
                if uploadedImages ≠ [] then
                  (db.imageFiles.filter
                    (fun p => ¬ p ∈ currentImages)) ++
                    uploadedImages.map imagePath
                else db.imageFiles })

/-- Modelled from the spec: the registration table's schema
(prisma/schema.prisma) is not under src/, so the cascade that removes an
event's registrations when the event row is deleted is taken from the
spec, which states that deleting an event removes all its registrations
("deleted when its event is deleted"). -/
def deleteRegistrationsForEvent (regs : List Registration)
    (eventId : String) : List Registration :=
  regs.filter (fun r => ¬ r.eventId = eventId)

/-- Model of the DELETE /:eventId route (src/src/routes/events.ts lines
288-308): existence and ownership checks, then the event row is deleted
(with its registrations, via `deleteRegistrationsForEvent`) and its
stored image files are unlinked (`deleteStoredImageFiles`). -/
def handleDeleteEvent (db : Db) (callerId : String) (eventId : String) :
    EventResponse × Db :=
  if eventId = "" then (.validationError "Event id is required", db)
  else
    match findEvent db eventId with
    | none => (.notFound, db)
    | some event =>
      if event.ownerId ≠ callerId then (.forbidden, db)
      else
        let imgs := parseImages event.images
        (.deleted,
          { db with
            events := db.events.filter (fun e => ¬ e.id = eventId)
            registrations :=
              deleteRegistrationsForEvent db.registrations eventId
            imageFiles := db.imageFiles.filter (fun p => ¬ p ∈ imgs) })

/-- Model of the GET /:eventId route (read-only). -/
def handleGetEvent (db : Db) (eventId : String) : EventResponse :=
  if eventId = "" then .validationError "Event id is required"
  else
    match findEvent db eventId with
    | none => .notFound
    | some e => .gotEvent e

/-! ## Registration (POST /events/:eventId/register) -/

/-- Responses of the register route, per the README: 201 with the new
registrationCount, 400 when closed or full, 404 when the event is
missing, 409 on a duplicate. -/
inductive RegisterResponse where
  | notFound
  | registrationClosed
  | capacityExceeded
  | duplicateRegistration
  | registered (registrationCount : Nat)
deriving DecidableEq, Repr

/-- Modelled from the spec: the handler of `POST /events/:eventId/register`
is not under src/ (only the README documents the route; `eventsRouter` in
src/src/routes/events.ts has no register route). Per spec section 4.1,
Register(eventId, userId, now) fails with NotFoundError if the event is
missing, RegistrationClosedError if now is at or past the registration
deadline, CapacityExceededError if the current count is at or above
attendanceLimit, DuplicateRegistrationError if the (user, event) pair
already exists, and otherwise inserts the registration atomically and
returns the current registration count. -/
def register (db : Db) (eventId userId : String) (now : Int) :
    RegisterResponse × Db :=
  match findEvent db eventId with
  | none => (.notFound, db)
  | some ev =>
    if ev.registrationDeadline ≤ now then (.registrationClosed, db)
    else if ev.attendanceLimit ≤ (registrationCount db eventId : Int) then
      (.capacityExceeded, db)
    else if hasRegistration db userId eventId then
      (.duplicateRegistration, db)
    else
      let db' :=
        { db with
          registrations :=
            db.registrations ++ [⟨userId, eventId, now⟩] }
      (.registered (registrationCount db' eventId), db')

/-! ## Store invariants -/

/-- Every stored event has at most `attendanceLimit` registrations. -/
def CapacityOk (db : Db) : Prop :=
  ∀ e ∈ db.events, (registrationCount db e.id : Int) ≤ e.attendanceLimit

/-- Every registration refers to a stored event. -/
def NoOrphans (db : Db) : Prop :=
  ∀ r ∈ db.registrations, ∃ e ∈ db.events, e.id = r.eventId

/-- Event ids are unique (the primary key of the event table). -/
def UniqueIds (db : Db) : Prop :=
  db.events.Pairwise (fun a b => a.id ≠ b.id)

/-- Every stored event has its registration deadline before its start. -/
def ScheduleOk (db : Db) : Prop :=
  ∀ e ∈ db.events, e.registrationDeadline < e.startsAt

/-! ## Helper lemmas -/

theorem registrationCount_append (db : Db) (u e : String) (t : Int) :
    registrationCount
      { db with registrations := db.registrations ++ [⟨u, e, t⟩] } e =
      registrationCount db e + 1 := by
  simp [registrationCount, List.filter_append]

theorem registrationCount_append_ne (db : Db) (u e e' : String) (t : Int)
    (h : e' ≠ e) :
    registrationCount
      { db with registrations := db.registrations ++ [⟨u, e, t⟩] } e' =
      registrationCount db e' := by
  simp [registrationCount, List.filter_append, h, Ne.symm h]

theorem hasRegistration_of_count_zero {db : Db} {e : String}
    (h : registrationCount db e = 0) (u : String) :
    hasRegistration db u e = false := by
  unfold registrationCount at h
  rw [List.length_eq_zero] at h
  unfold hasRegistration
  rw [List.any_eq_false]
  intro r hr
  intro hcontra
  simp only [Bool.and_eq_true, decide_eq_true_eq] at hcontra
  have : r ∈ db.registrations.filter (fun r => r.eventId = e) := by
    rw [List.mem_filter]
    exact ⟨hr, by simp [hcontra.2]⟩
  rw [h] at this
  exact absurd this (List.not_mem_nil r)

theorem findEvent_mem {db : Db} {eid : String} {ev : Event}
    (h : findEvent db eid = some ev) : ev ∈ db.events ∧ ev.id = eid := by
  unfold findEvent at h
  refine ⟨List.mem_of_find?_eq_some h, ?_⟩
  have := List.find?_some h
  simpa using this

theorem findEvent_unique {db : Db} (hu : UniqueIds db) {eid : String}
    {ev e : Event} (hf : findEvent db eid = some ev) (he : e ∈ db.events)
    (hid : e.id = eid) : e = ev := by
  obtain ⟨hmem, hevid⟩ := findEvent_mem hf
  by_contra hne
  have hsymm : Symmetric (fun a b : Event => a.id ≠ b.id) := by
    intro a b hab
    exact fun h => hab h.symm
  have := hu.forall hsymm he hmem hne
  exact this (hid.trans hevid.symm)

/-! ## Claim theorems -/

/-- C10: The JSON encoding of an event's image-reference list round-trips
exactly through the storage boundary: for every list of strings xs,
`eventImageStorage.parse (eventImageStorage.stringify xs) = xs`, and
parse of the empty string returns the empty list. -/
theorem c10_image_roundtrip (xs : List String) :
    eventImageStorage.parse (eventImageStorage.stringify xs) = xs ∧
    eventImageStorage.parse "" = [] :=
  ⟨parseImages_stringifyImages xs, rfl⟩

/-- C1: Register(eventId, userId, now) returns a confirmation carrying the
current registrationCount, and fails with NotFoundError when the event is
missing, RegistrationClosedError when now is at or past the registration
deadline, CapacityExceededError when the count has reached
attendanceLimit, and DuplicateRegistrationError when the user already
holds a registration (checks in that order, per the spec). -/
theorem c1_register_spec (db : Db) (eventId userId : String) (now : Int) :
    (findEvent db eventId = none →
      register db eventId userId now = (.notFound, db)) ∧
    (∀ ev, findEvent db eventId = some ev →
      (ev.registrationDeadline ≤ now →
        register db eventId userId now = (.registrationClosed, db)) ∧
      (now < ev.registrationDeadline →
        (ev.attendanceLimit : Int) ≤ (registrationCount db eventId : Int) →
        register db eventId userId now = (.capacityExceeded, db)) ∧
      (now < ev.registrationDeadline →
        (registrationCount db eventId : Int) < (ev.attendanceLimit : Int) →
        hasRegistration db userId eventId = true →
        register db eventId userId now = (.duplicateRegistration, db)) ∧
      (now < ev.registrationDeadline →
        (registrationCount db eventId : Int) < (ev.attendanceLimit : Int) →
        hasRegistration db userId eventId = false →
        register db eventId userId now =
          (.registered (registrationCount db eventId + 1),
            { db with registrations :=
                db.registrations ++ [⟨userId, eventId, now⟩] }))) := by
  constructor
  · intro hf
    simp [register, hf]
  · intro ev hf
    refine ⟨?_, ?_, ?_, ?_⟩
    · intro hdl
      simp [register, hf, hdl]
    · intro hdl hcap
      have h1 : ¬(ev.registrationDeadline ≤ now) := by omega
      simp [register, hf, h1, hcap]
    · intro hdl hcap hdup
      have h1 : ¬(ev.registrationDeadline ≤ now) := by omega
      have h2 : ¬((ev.attendanceLimit : Int) ≤
          (registrationCount db eventId : Int)) := by omega
      simp [register, hf, h1, h2, hdup]
    · intro hdl hcap hdup
      have h1 : ¬(ev.registrationDeadline ≤ now) := by omega
      have h2 : ¬((ev.attendanceLimit : Int) ≤
          (registrationCount db eventId : Int)) := by omega
      simp [register, hf, h1, h2, hdup, registrationCount_append]

def c1Event : Event :=
  { id := "e1", name := "Party", description := "fun", location := "Zurich",
    startsAt := 100, images := "[]", category := "social",
    ownerId := "alice", ownerName := "Alice", attendanceLimit := 2,
    registrationDeadline := 50 }

def c1Db : Db :=
  { events := [c1Event], registrations := [], imageFiles := [] }

theorem c1_register_spec_witness :
    register c1Db "e1" "u1" 10 =
      (.registered 1,
        { c1Db with registrations := [⟨"u1", "e1", 10⟩] }) := by
  have h := ((c1_register_spec c1Db "e1" "u1" 10).2 c1Event rfl).2.2.2
    (by norm_num [c1Event]) (by norm_num [c1Event, registrationCount, c1Db])
    (by rfl)
  simpa [registrationCount, c1Db] using h

/-- Inversion for a successful register call: a `.registered` result
implies the event was found, the deadline had not passed, a seat was
still free, and the call inserted exactly one row for that event. -/
theorem register_registered_inv (db : Db) (eventId userId : String)
    (now : Int) (k : Nat)
    (h : (register db eventId userId now).1 = .registered k) :
    ∃ ev, findEvent db eventId = some ev ∧
      now < ev.registrationDeadline ∧
      (registrationCount db eventId : Int) < ev.attendanceLimit ∧
      register db eventId userId now =
        (.registered (registrationCount db eventId + 1),
          { db with registrations :=
              db.registrations ++ [⟨userId, eventId, now⟩] }) := by
  cases hf : findEvent db eventId with
  | none => simp [register, hf] at h
  | some ev =>
    by_cases h1 : ev.registrationDeadline ≤ now
    · simp [register, hf, h1] at h
    · by_cases h2 : (ev.attendanceLimit : Int) ≤
          (registrationCount db eventId : Int)
      · simp [register, hf, h1, h2] at h
      · by_cases h3 : hasRegistration db userId eventId
        · simp [register, hf, h1, h2, h3] at h
        · exact ⟨ev, rfl, by omega, by omega,
            by simp [register, hf, h1, h2, h3, registrationCount_append]⟩

def c3Event : Event :=
  { id := "e1", name := "Party", description := "fun", location := "Zurich",
    startsAt := 100, images := "[]", category := "social",
    ownerId := "alice", ownerName := "Alice", attendanceLimit := 1,
    registrationDeadline := 50 }

def c3Db : Db :=
  { events := [c3Event], registrations := [], imageFiles := [] }

def c3yEvent : Event :=
  { id := "e1", name := "Party", description := "fun", location := "Zurich",
    startsAt := 100, images := "[]", category := "social",
    ownerId := "alice", ownerName := "Alice", attendanceLimit := 2,
    registrationDeadline := 50 }

def c3yDb : Db :=
  { events := [c3yEvent], registrations := [⟨"u1", "e1", 5⟩],
    imageFiles := [] }

/-- C3 counterexample: unconditionally, the claim is false. Two events
with exactly one seat remaining where two serialized Register calls
yield zero successes. (1) `c3Db` stores an event with attendanceLimit 1,
no registrations, registrationDeadline 50; at now = 60 both calls return
RegistrationClosedError — zero successes, and with an error the claim
does not even list. (2) `c3yDb` stores an event with attendanceLimit 2
and one registration by u1 (one seat remaining); before the deadline,
two calls both made by the already-registered u1 both return
DuplicateRegistrationError — again zero successes. -/
theorem c3_counterexample :
    (c3Event.attendanceLimit = 1 ∧ registrationCount c3Db "e1" = 0 ∧
      (register c3Db "e1" "u1" 60).1 = .registrationClosed ∧
      (register (register c3Db "e1" "u1" 60).2 "e1" "u2" 60).1 =
        .registrationClosed) ∧
    (c3yEvent.attendanceLimit = 2 ∧ registrationCount c3yDb "e1" = 1 ∧
      (register c3yDb "e1" "u1" 10).1 = .duplicateRegistration ∧
      (register (register c3yDb "e1" "u1" 10).2 "e1" "u1" 10).1 =
        .duplicateRegistration) := by
  constructor
  · exact ⟨by decide, by decide, by decide, by decide⟩
  · exact ⟨by decide, by decide, by decide, by decide⟩

/-- C3 (amended): for every event with exactly one seat remaining
(registration count + 1 = attendanceLimit), two Register calls on that
event, serialized in either order (the spec mandates atomic per-event
check-and-insert, so a concurrent execution is an interleaving of the
two atomic calls; the statement is symmetric in the two callers, so both
interleavings are instances), never both succeed; and — under the
conditions the counterexamples force: both calls occur before the
registration deadline and the two callers do not both already hold a
registration — they result in exactly one success carrying
registrationCount = attendanceLimit and one failure with
CapacityExceededError or DuplicateRegistrationError: a first caller who
is not yet registered succeeds and the second call fails with
CapacityExceededError; a first caller who is already registered fails
with DuplicateRegistrationError and a not-yet-registered second caller
then takes the last seat. -/
theorem c3_one_seat_race_amended (db : Db) (ev : Event)
    (eventId u1 u2 : String) (now1 now2 : Int)
    (hfind : findEvent db eventId = some ev)
    (hseat : (registrationCount db eventId : Int) + 1 =
      ev.attendanceLimit) :
    (∀ k m : Nat, ¬((register db eventId u1 now1).1 = .registered k ∧
      (register (register db eventId u1 now1).2 eventId u2 now2).1 =
        .registered m)) ∧
    (now1 < ev.registrationDeadline → now2 < ev.registrationDeadline →
      hasRegistration db u1 eventId = false →
      (register db eventId u1 now1).1 =
        .registered (registrationCount db eventId + 1) ∧
      (register (register db eventId u1 now1).2 eventId u2 now2).1 =
        .capacityExceeded) ∧
    (now1 < ev.registrationDeadline → now2 < ev.registrationDeadline →
      hasRegistration db u1 eventId = true →
      hasRegistration db u2 eventId = false →
      (register db eventId u1 now1).1 = .duplicateRegistration ∧
      (register (register db eventId u1 now1).2 eventId u2 now2).1 =
        .registered (registrationCount db eventId + 1)) := by
  refine ⟨?_, ?_, ?_⟩
  · intro k m hkm
    obtain ⟨h1r, h2r⟩ := hkm
    obtain ⟨ev1, hf1, hn1, hc1, hE1⟩ :=
      register_registered_inv db eventId u1 now1 k h1r
    have hE2 : (register db eventId u1 now1).2 =
        { db with registrations :=
            db.registrations ++ [⟨u1, eventId, now1⟩] } := by
      rw [hE1]
    rw [hE2] at h2r
    obtain ⟨ev2, hf2, hn2, hc2, _⟩ :=
      register_registered_inv _ eventId u2 now2 m h2r
    have hfind2 : findEvent
        { db with registrations :=
            db.registrations ++ [⟨u1, eventId, now1⟩] } eventId =
        some ev := hfind
    rw [hfind2] at hf2
    injection hf2 with hev2
    have hcnt : registrationCount
        { db with registrations :=
            db.registrations ++ [⟨u1, eventId, now1⟩] } eventId =
        registrationCount db eventId + 1 :=
      registrationCount_append db u1 eventId now1
    rw [hcnt, ← hev2] at hc2
    push_cast at hc2
    omega
  · intro hn1 hn2 hdup1
    have hne1 : ¬(ev.registrationDeadline ≤ now1) := by omega
    have hne2 : ¬(ev.registrationDeadline ≤ now2) := by omega
    have hcap1 : ¬((ev.attendanceLimit : Int) ≤
        (registrationCount db eventId : Int)) := by omega
    have hstep : register db eventId u1 now1 =
        (.registered (registrationCount db eventId + 1),
          { db with registrations :=
              db.registrations ++ [⟨u1, eventId, now1⟩] }) := by
      simp [register, hfind, hne1, hcap1, hdup1, registrationCount_append]
    refine ⟨by rw [hstep], ?_⟩
    rw [hstep]
    have hfind2 : findEvent
        { db with registrations :=
            db.registrations ++ [⟨u1, eventId, now1⟩] } eventId =
        some ev := hfind
    have hcnt2 : registrationCount
        { db with registrations :=
            db.registrations ++ [⟨u1, eventId, now1⟩] } eventId =
        registrationCount db eventId + 1 :=
      registrationCount_append db u1 eventId now1
    have hcap2 : (ev.attendanceLimit : Int) ≤
        (registrationCount
          { db with registrations :=
              db.registrations ++ [⟨u1, eventId, now1⟩] } eventId : Int) := by
      rw [hcnt2]
      push_cast
      omega
    simp [register, hfind2, hne2, hcap2]
  · intro hn1 hn2 hdup1 hdup2
    have hne1 : ¬(ev.registrationDeadline ≤ now1) := by omega
    have hne2 : ¬(ev.registrationDeadline ≤ now2) := by omega
    have hcap : ¬((ev.attendanceLimit : Int) ≤
        (registrationCount db eventId : Int)) := by omega
    have hstep : register db eventId u1 now1 =
        (.duplicateRegistration, db) := by
      simp [register, hfind, hne1, hcap, hdup1]
    refine ⟨by rw [hstep], ?_⟩
    rw [hstep]
    simp [register, hfind, hne2, hcap, hdup2, registrationCount_append]

theorem c3_one_seat_race_amended_witness :
    (register c3Db "e1" "u1" 10).1 =
      .registered (registrationCount c3Db "e1" + 1) ∧
    (register (register c3Db "e1" "u1" 10).2 "e1" "u2" 10).1 =
      .capacityExceeded :=
  (c3_one_seat_race_amended c3Db c3Event "e1" "u1" "u2" 10 10 rfl
    (by decide)).2.1 (by decide) (by decide) rfl

theorem validateSchedule_none {st dl now : Int}
    (h : validateSchedule st dl now = none) :
    now < st ∧ now < dl ∧ dl < st := by
  by_cases h1 : st ≤ now
  · simp [validateSchedule, h1] at h
  · by_cases h2 : dl ≤ now
    · simp [validateSchedule, h1, h2] at h
    · by_cases h3 : st ≤ dl
      · simp [validateSchedule, h1, h2, h3] at h
      · exact ⟨by omega, by omega, by omega⟩

theorem validateSchedule_some {st dl now : Int} (h : st ≤ dl) :
    ∃ msg, validateSchedule st dl now = some msg := by
  unfold validateSchedule
  by_cases h1 : st ≤ now
  · exact ⟨"Event time must be in the future", by simp [h1]⟩
  · by_cases h2 : dl ≤ now
    · exact ⟨"Registration deadline must be in the future", by simp [h1, h2]⟩
    · exact ⟨"Registration deadline must be before the event start time",
        by simp [h1, h2, h]⟩

theorem schemaCheck_dates {d : EventDraft}
    (h : createEventSchemaCheck d = true) :
    ∃ st dl, d.time = some st ∧ d.registrationDeadline = some dl := by
  unfold createEventSchemaCheck basicFieldsOk at h
  simp only [Bool.and_eq_true, decide_eq_true_eq] at h
  obtain ⟨⟨⟨⟨⟨⟨⟨⟨⟨⟨⟨⟨h1, h2⟩, h3⟩, h4⟩, h5⟩, h6⟩, h7⟩, h8⟩, h9⟩, h10⟩,
    h11⟩, h12⟩, h13⟩ := h
  obtain ⟨st, hst⟩ := Option.isSome_iff_exists.mp h7
  obtain ⟨dl, hdl⟩ := Option.isSome_iff_exists.mp h12
  exact ⟨st, dl, hst, hdl⟩

theorem schemaCheck_limit {d : EventDraft}
    (h : createEventSchemaCheck d = true) : 0 < d.attendanceLimit := by
  unfold createEventSchemaCheck at h
  simp only [Bool.and_eq_true, decide_eq_true_eq] at h
  exact h.2

/-- Outcome analysis of `register`: either the store is unchanged, or a
registration for an existing, not-yet-full event is appended. -/
theorem register_cases (db : Db) (eventId userId : String) (now : Int) :
    (register db eventId userId now).2 = db ∨
    (∃ ev, findEvent db eventId = some ev ∧
      (registrationCount db eventId : Int) < ev.attendanceLimit ∧
      (register db eventId userId now).2 =
        { db with registrations :=
            db.registrations ++ [⟨userId, eventId, now⟩] }) := by
  unfold register
  cases hf : findEvent db eventId with
  | none => simp
  | some ev =>
    by_cases h1 : ev.registrationDeadline ≤ now
    · simp [h1]
    · by_cases h2 : (ev.attendanceLimit : Int) ≤
          (registrationCount db eventId : Int)
      · simp [h1, h2]
      · by_cases h3 : hasRegistration db userId eventId
        · simp [h1, h2, h3]
        · right
          exact ⟨ev, rfl, by omega, by simp [h1, h2, h3]⟩

/-- Outcome analysis of `handleCreateEvent`: either a validation error
with the store unchanged, or the validated event is appended. -/
theorem handleCreateEvent_cases (db : Db) (callerId name : String)
    (d : EventDraft) (imgs : List String) (newId : String) (now : Int) :
    (∃ msg, handleCreateEvent db callerId name d imgs newId now =
        (.validationError msg, db)) ∨
    (∃ st dl e, d.time = some st ∧ d.registrationDeadline = some dl ∧
      createEventSchemaCheck d = true ∧
      validateSchedule st dl now = none ∧
      e.id = newId ∧ e.startsAt = st ∧ e.registrationDeadline = dl ∧
      e.attendanceLimit = d.attendanceLimit ∧
      e.images = stringifyImages (imgs.map imagePath) ∧
      handleCreateEvent db callerId name d imgs newId now =
        (.createdEvent e,
          { db with
            events := db.events ++ [e],
            imageFiles := db.imageFiles ++ imgs.map imagePath })) := by
  unfold handleCreateEvent
  by_cases hc : createEventSchemaCheck d
  · obtain ⟨st, dl, hst, hdl⟩ := schemaCheck_dates hc
    cases hv : validateSchedule (d.time.getD 0) (d.registrationDeadline.getD 0)
        now with
    | some msg => left; exact ⟨msg, by simp [hc, hv]⟩
    | none =>
      right
      rw [hst, hdl] at hv
      simp only [Option.getD_some] at hv
      refine ⟨st, dl,
        { id := newId, name := d.name, description := d.description,
          location := d.location, startsAt := st,
          images := stringifyImages (imgs.map imagePath),
          category := d.category, ownerId := callerId,
          ownerName :=
            if jsTrim d.eventOwner ≠ "" then jsTrim d.eventOwner
            else if jsTrim name ≠ "" then jsTrim name
            else "Event Owner",
          attendanceLimit := d.attendanceLimit,
          registrationDeadline := dl },
        hst, hdl, hc, hv, rfl, rfl, rfl, rfl, rfl, ?_⟩
      simp [hc, hst, hdl, hv]
  · left
    exact ⟨"Invalid input", by simp [hc]⟩

/-- Outcome analysis of `handleUpdateEvent`: either a rejection (400, 404
or 403) with the store unchanged, or the stored row with the requested id
is replaced by the re-validated draft. -/
theorem handleUpdateEvent_cases (db : Db) (callerId name eventId : String)
    (d : EventDraft) (imgs : List String) (now : Int) :
    ((handleUpdateEvent db callerId name eventId d imgs now).2 = db ∧
      ((∃ msg, (handleUpdateEvent db callerId name eventId d imgs now).1 =
          .validationError msg) ∨
        (handleUpdateEvent db callerId name eventId d imgs now).1 =
          .notFound ∨
        (handleUpdateEvent db callerId name eventId d imgs now).1 =
          .forbidden)) ∨
    (∃ ev st dl e', findEvent db eventId = some ev ∧
      createEventSchemaCheck d = true ∧ ¬eventId = "" ∧
      ev.ownerId = callerId ∧
      d.time = some st ∧ d.registrationDeadline = some dl ∧
      validateSchedule st dl now = none ∧
      e'.id = ev.id ∧ e'.startsAt = st ∧ e'.registrationDeadline = dl ∧
      e'.attendanceLimit = d.attendanceLimit ∧
      e'.images = stringifyImages
        (if imgs ≠ [] then imgs.map imagePath else parseImages ev.images) ∧
      handleUpdateEvent db callerId name eventId d imgs now =
        (.updatedEvent e',
          { db with
            events :=
              db.events.map (fun e => if e.id = eventId then e' else e),
            imageFiles :=
              if imgs ≠ [] then
                (db.imageFiles.filter
                  (fun p => ¬ p ∈ parseImages ev.images)) ++
                  imgs.map imagePath
              else db.imageFiles })) := by
  unfold handleUpdateEvent
  by_cases hc : createEventSchemaCheck d
  · by_cases hid : eventId = ""
    · left
      constructor
      · simp [hc, hid]
      · left; exact ⟨"Event id is required", by simp [hc, hid]⟩
    · cases hf : findEvent db eventId with
      | none =>
        left
        constructor
        · simp [hc, hid, hf]
        · right; left; simp [hc, hid, hf]
      | some ev =>
        by_cases how : ev.ownerId ≠ callerId
        · left
          constructor
          · simp [hc, hid, hf, how]
          · right; right; simp [hc, hid, hf, how]
        · obtain ⟨st, dl, hst, hdl⟩ := schemaCheck_dates hc
          cases hv : validateSchedule (d.time.getD 0)
              (d.registrationDeadline.getD 0) now with
          | some msg =>
            left
            constructor
            · simp [hc, hid, hf, how, hv]
            · left; exact ⟨msg, by simp [hc, hid, hf, how, hv]⟩
          | none =>
            right
            rw [hst, hdl] at hv
            simp only [Option.getD_some] at hv
            push_neg at how
            refine ⟨ev, st, dl,
              { ev with
                name := d.name, description := d.description,
                location := d.location, startsAt := st,
                images := stringifyImages
                  (if imgs ≠ [] then imgs.map imagePath
                   else parseImages ev.images),
                category := d.category,
                attendanceLimit := d.attendanceLimit,
                registrationDeadline := dl,
                ownerName :=
                  if jsTrim d.eventOwner ≠ "" then jsTrim d.eventOwner
                  else if jsTrim name ≠ "" then jsTrim name
                  else ev.ownerName },
              rfl, hc, hid, how, hst, hdl, hv, rfl, rfl, rfl, rfl, rfl, ?_⟩
            simp [hc, hid, how, hst, hdl, hv]
  · left
    constructor
    · simp [hc]
    · left
      exact ⟨"Invalid input", by simp [hc]⟩

/-- Outcome analysis of the DELETE route: either a rejection with the
store unchanged, or the event row, its registrations and its image files
are removed. -/
theorem handleDeleteEvent_cases (db : Db) (callerId eventId : String) :
    (handleDeleteEvent db callerId eventId).2 = db ∨
    (∃ ev, findEvent db eventId = some ev ∧ ev.ownerId = callerId ∧
      handleDeleteEvent db callerId eventId =
        (.deleted,
          { db with
            events := db.events.filter (fun e => ¬ e.id = eventId),
            registrations :=
              db.registrations.filter (fun r => ¬ r.eventId = eventId),
            imageFiles :=
              db.imageFiles.filter
                (fun p => ¬ p ∈ parseImages ev.images) })) := by
  unfold handleDeleteEvent
  by_cases hid : eventId = ""
  · left; simp [hid]
  · cases hf : findEvent db eventId with
    | none => left; simp [hid, hf]
    | some ev =>
      by_cases how : ev.ownerId ≠ callerId
      · left; simp [hid, hf, how]
      · right
        push_neg at how
        exact ⟨ev, rfl, how,
          by simp [hid, hf, how, deleteRegistrationsForEvent]⟩

/-- C4: every stored event keeps registrationDeadline < startsAt under
each operation, and any Create or Update attempt whose draft has
registrationDeadline ≥ startsAt is rejected — Create with a
ValidationError, Update with a 400/404/403 response (its existence and
ownership checks run first) — leaving the event store unchanged. -/
theorem c4_schedule_invariant (db : Db) (hs : ScheduleOk db) :
    (∀ callerId name d imgs newId now,
      ScheduleOk (handleCreateEvent db callerId name d imgs newId now).2) ∧
    (∀ callerId name eventId d imgs now,
      ScheduleOk (handleUpdateEvent db callerId name eventId d imgs now).2) ∧
    (∀ callerId eventId,
      ScheduleOk (handleDeleteEvent db callerId eventId).2) ∧
    (∀ eventId userId now,
      ScheduleOk (register db eventId userId now).2) ∧
    (∀ callerId name d imgs newId now st dl,
      d.time = some st → d.registrationDeadline = some dl → st ≤ dl →
      ∃ msg, handleCreateEvent db callerId name d imgs newId now =
        (.validationError msg, db)) ∧
    (∀ callerId name eventId d imgs now st dl,
      d.time = some st → d.registrationDeadline = some dl → st ≤ dl →
      (handleUpdateEvent db callerId name eventId d imgs now).2 = db ∧
      ((handleUpdateEvent db callerId name eventId d imgs now).1.status = 400 ∨
       (handleUpdateEvent db callerId name eventId d imgs now).1.status = 404 ∨
       (handleUpdateEvent db callerId name eventId d imgs now).1.status = 403)) := by
  refine ⟨?_, ?_, ?_, ?_, ?_, ?_⟩
  · intro callerId name d imgs newId now
    rcases handleCreateEvent_cases db callerId name d imgs newId now with
      ⟨msg, hE⟩ | ⟨st, dl, e, hst, hdl, hc, hv, hid, hstval, hdlval, hlim,
        himg, hE⟩
    · rw [hE]; exact hs
    · rw [hE]
      intro x hx
      simp only [List.mem_append, List.mem_singleton] at hx
      rcases hx with hx | rfl
      · exact hs x hx
      · rw [hstval, hdlval]
        exact (validateSchedule_none hv).2.2
  · intro callerId name eventId d imgs now
    rcases handleUpdateEvent_cases db callerId name eventId d imgs now with
      ⟨hE, _⟩ | ⟨ev, st, dl, e', hf, hc, hid, how, hst, hdl, hv, hide,
        hstval, hdlval, hlim, himg, hE⟩
    · rw [hE]; exact hs
    · rw [hE]
      intro x hx
      simp only [List.mem_map] at hx
      obtain ⟨y, hy, rfl⟩ := hx
      by_cases hid2 : y.id = eventId
      · rw [if_pos hid2, hstval, hdlval]
        exact (validateSchedule_none hv).2.2
      · rw [if_neg hid2]
        exact hs y hy
  · intro callerId eventId
    rcases handleDeleteEvent_cases db callerId eventId with hE | ⟨ev, hf,
      how, hE⟩
    · rw [hE]; exact hs
    · rw [hE]
      intro x hx
      simp only [List.mem_filter] at hx
      exact hs x hx.1
  · intro eventId userId now
    rcases register_cases db eventId userId now with hE | ⟨ev, hf, hcap, hE⟩
    · rw [hE]; exact hs
    · rw [hE]
      exact fun x hx => hs x hx
  · intro callerId name d imgs newId now st dl hst hdl hle
    rcases handleCreateEvent_cases db callerId name d imgs newId now with
      ⟨msg, hE⟩ | ⟨st', dl', e, hst', hdl', hc, hv, hid, hstval, hdlval,
        hlim, himg, hE⟩
    · exact ⟨msg, hE⟩
    · rw [hst] at hst'
      rw [hdl] at hdl'
      obtain rfl : st = st' := by injection hst'
      obtain rfl : dl = dl' := by injection hdl'
      have := (validateSchedule_none hv).2.2
      omega
  · intro callerId name eventId d imgs now st dl hst hdl hle
    rcases handleUpdateEvent_cases db callerId name eventId d imgs now with
      ⟨hE, houtcome⟩ | ⟨ev, st', dl', e', hf, hc, hid, how, hst', hdl', hv,
        hide, hstval, hdlval, hlim, himg, hE⟩
    · refine ⟨hE, ?_⟩
      rcases houtcome with ⟨msg, h1⟩ | h1 | h1 <;> rw [h1]
      · left; rfl
      · right; left; rfl
      · right; right; rfl
    · rw [hst] at hst'
      rw [hdl] at hdl'
      obtain rfl : st = st' := by injection hst'
      obtain rfl : dl = dl' := by injection hdl'
      have := (validateSchedule_none hv).2.2
      omega

def c4BadDraft : EventDraft :=
  { name := "Party", description := "fun", location := "Zurich",
    time := some 100, eventOwner := "Alice", category := "social",
    attendanceLimit := 2, registrationDeadline := some 100 }

theorem c4_schedule_invariant_witness :
    ∃ msg, handleCreateEvent ⟨[], [], []⟩ "alice" "Alice" c4BadDraft []
      "e1" 0 = (.validationError msg, ⟨[], [], []⟩) :=
  (c4_schedule_invariant ⟨[], [], []⟩
    (by intro e he; simp at he)).2.2.2.2.1
    "alice" "Alice" c4BadDraft [] "e1" 0 100 100 rfl rfl (by norm_num)

theorem validateSchedule_none_iff {st dl now : Int} :
    validateSchedule st dl now = none ↔ now < st ∧ now < dl ∧ dl < st := by
  constructor
  · exact validateSchedule_none
  · rintro ⟨h1, h2, h3⟩
    unfold validateSchedule
    rw [if_neg (by omega), if_neg (by omega), if_neg (by omega)]

def c5BadDraft : EventDraft :=
  { name := "", description := "fun", location := "Zurich",
    time := some 100, eventOwner := "Alice", category := "social",
    attendanceLimit := 2, registrationDeadline := some 50 }

/-- C5 counterexample: a draft meeting all four stated conditions
(deadline 50 < start 100, both in the future of now = 0, limit 2 > 0) is
still rejected with a ValidationError and nothing persisted, because its
empty name fails the input schema — so "created exactly when the four
conditions hold" is false as stated. -/
theorem c5_counterexample :
    c5BadDraft.time = some 100 ∧
    c5BadDraft.registrationDeadline = some 50 ∧
    ((50 : Int) < 100 ∧ (0 : Int) < 100 ∧ (0 : Int) < 50 ∧
      0 < c5BadDraft.attendanceLimit) ∧
    handleCreateEvent ⟨[], [], []⟩ "alice" "Alice" c5BadDraft [] "e1" 0 =
      (.validationError "Invalid input", ⟨[], [], []⟩) := by
  refine ⟨rfl, rfl, ⟨by norm_num, by norm_num, by norm_num, by decide⟩, rfl⟩

/-- C5 amended: assuming the draft's basic fields pass the input schema
(nonempty bounded name/description/location/owner/category, parseable
dates), a new event is created and persisted exactly when
registrationDeadline < startsAt, startsAt > now, registrationDeadline >
now and attendanceLimit > 0 all hold; otherwise the call fails with a
ValidationError (HTTP 400) and no event is persisted. -/
theorem c5_amended (db : Db) (callerId name : String) (d : EventDraft)
    (imgs : List String) (newId : String) (now st dl : Int)
    (hbasic : basicFieldsOk d = true)
    (ht : d.time = some st) (hd : d.registrationDeadline = some dl) :
    (dl < st ∧ now < st ∧ now < dl ∧ 0 < d.attendanceLimit →
      ∃ e, handleCreateEvent db callerId name d imgs newId now =
        (.createdEvent e,
          { db with
            events := db.events ++ [e],
            imageFiles := db.imageFiles ++ imgs.map imagePath }) ∧
        e.startsAt = st ∧ e.registrationDeadline = dl ∧
        e.attendanceLimit = d.attendanceLimit ∧ e.id = newId) ∧
    (¬(dl < st ∧ now < st ∧ now < dl ∧ 0 < d.attendanceLimit) →
      ∃ msg, handleCreateEvent db callerId name d imgs newId now =
        (.validationError msg, db)) := by
  constructor
  · rintro ⟨h3, h1, h2, h4⟩
    have hcheck : createEventSchemaCheck d = true := by
      unfold createEventSchemaCheck
      simp [hbasic, h4]
    have hv : validateSchedule st dl now = none :=
      validateSchedule_none_iff.mpr ⟨h1, h2, h3⟩
    refine ⟨
      { id := newId, name := d.name, description := d.description,
        location := d.location, startsAt := st,
        images := stringifyImages (imgs.map imagePath),
        category := d.category, ownerId := callerId,
        ownerName :=
          if jsTrim d.eventOwner ≠ "" then jsTrim d.eventOwner
          else if jsTrim name ≠ "" then jsTrim name
          else "Event Owner",
        attendanceLimit := d.attendanceLimit,
        registrationDeadline := dl }, ?_, rfl, rfl, rfl, rfl⟩
    simp [handleCreateEvent, hcheck, ht, hd, hv]
  · intro hnot
    by_cases hcheck : createEventSchemaCheck d = true
    · have h4 := schemaCheck_limit hcheck
      have hvne : validateSchedule st dl now ≠ none := by
        intro hcontra
        obtain ⟨a1, a2, a3⟩ := validateSchedule_none_iff.mp hcontra
        exact hnot ⟨a3, a1, a2, h4⟩
      obtain ⟨msg, hv⟩ := Option.ne_none_iff_exists'.mp hvne
      exact ⟨msg, by simp [handleCreateEvent, hcheck, ht, hd, hv]⟩
    · exact ⟨"Invalid input", by simp [handleCreateEvent, hcheck]⟩

def c5GoodDraft : EventDraft :=
  { name := "Party", description := "fun", location := "Zurich",
    time := some 100, eventOwner := "Alice", category := "social",
    attendanceLimit := 2, registrationDeadline := some 50 }

theorem c5_amended_witness :
    ∃ e, handleCreateEvent ⟨[], [], []⟩ "alice" "Alice" c5GoodDraft []
        "e1" 0 =
      (.createdEvent e,
        { events := [] ++ [e], registrations := [],
          imageFiles := [] ++ ([] : List String).map imagePath }) ∧
      e.startsAt = 100 ∧ e.registrationDeadline = 50 ∧
      e.attendanceLimit = c5GoodDraft.attendanceLimit ∧ e.id = "e1" := by
  have h := c5_amended ⟨[], [], []⟩ "alice" "Alice" c5GoodDraft [] "e1" 0
    100 50 (by decide) rfl rfl
  exact h.1 ⟨by norm_num, by norm_num, by norm_num, by decide⟩

def c6Event : Event :=
  { id := "e1", name := "Party", description := "fun", location := "Zurich",
    startsAt := 100, images := "[]", category := "social",
    ownerId := "alice", ownerName := "Alice", attendanceLimit := 2,
    registrationDeadline := 50 }

def c6Db : Db :=
  { events := [c6Event], registrations := [], imageFiles := [] }

def c6BadDraft : EventDraft :=
  { name := "", description := "fun", location := "Zurich",
    time := some 100, eventOwner := "Alice", category := "social",
    attendanceLimit := 2, registrationDeadline := some 50 }

/-- C6 counterexample: an Update of an existing event by a non-owner whose
request body fails input validation is rejected with ValidationError
(HTTP 400) before the ownership check runs, so "always fails with
ForbiddenError regardless of the rest of the request" is false as
stated. The event record is still left unchanged. -/
theorem c6_counterexample :
    findEvent c6Db "e1" = some c6Event ∧ c6Event.ownerId ≠ "bob" ∧
    handleUpdateEvent c6Db "bob" "Bob" "e1" c6BadDraft [] 0 =
      (.validationError "Invalid input", c6Db) ∧
    (handleUpdateEvent c6Db "bob" "Bob" "e1" c6BadDraft [] 0).1.status ≠
      403 := by
  exact ⟨rfl, by decide, rfl, by decide⟩

/-- C6 amended: for every Update call on an existing event (with a
nonempty event id) whose request body passes input validation, a caller
other than the owner always gets ForbiddenError (HTTP 403) and the stored
event record is left unchanged; an invalid body is instead rejected with
ValidationError, also leaving the record unchanged. -/
theorem c6_amended (db : Db) (callerId name eventId : String)
    (d : EventDraft) (imgs : List String) (now : Int) (ev : Event)
    (hschema : createEventSchemaCheck d = true)
    (hne : eventId ≠ "")
    (hfind : findEvent db eventId = some ev)
    (howner : ev.ownerId ≠ callerId) :
    handleUpdateEvent db callerId name eventId d imgs now =
      (.forbidden, db) := by
  simp [handleUpdateEvent, hschema, hne, hfind, howner]

def c6GoodDraft : EventDraft :=
  { name := "Party", description := "fun", location := "Zurich",
    time := some 100, eventOwner := "Alice", category := "social",
    attendanceLimit := 2, registrationDeadline := some 50 }

theorem c6_amended_witness :
    handleUpdateEvent c6Db "bob" "Bob" "e1" c6GoodDraft [] 0 =
      (.forbidden, c6Db) :=
  c6_amended c6Db "bob" "Bob" "e1" c6GoodDraft [] 0 c6Event (by decide)
    (by decide) rfl (by decide)

/-- C7: a successful owner Delete removes the event record, every
registration for that event, and every stored image file referenced by
the event, and a subsequent Get of that id returns NotFoundError (404). -/
theorem c7_delete_spec (db : Db) (callerId eventId : String) (ev : Event)
    (hne : eventId ≠ "")
    (hfind : findEvent db eventId = some ev)
    (howner : ev.ownerId = callerId) :
    (handleDeleteEvent db callerId eventId).1 = .deleted ∧
    (∀ e ∈ (handleDeleteEvent db callerId eventId).2.events,
      e.id ≠ eventId) ∧
    (∀ reg ∈ (handleDeleteEvent db callerId eventId).2.registrations,
      reg.eventId ≠ eventId) ∧
    (∀ p ∈ parseImages ev.images,
      p ∉ (handleDeleteEvent db callerId eventId).2.imageFiles) ∧
    handleGetEvent (handleDeleteEvent db callerId eventId).2 eventId =
      .notFound := by
  have hnot : ¬ ev.ownerId ≠ callerId := by simp [howner]
  have hE : handleDeleteEvent db callerId eventId =
      (.deleted,
        { db with
          events := db.events.filter (fun e => ¬ e.id = eventId),
          registrations :=
            db.registrations.filter (fun r => ¬ r.eventId = eventId),
          imageFiles :=
            db.imageFiles.filter
              (fun p => ¬ p ∈ parseImages ev.images) }) := by
    simp [handleDeleteEvent, deleteRegistrationsForEvent, hne, hfind, hnot]
  rw [hE]
  refine ⟨rfl, ?_, ?_, ?_, ?_⟩
  · intro e he
    simp only [List.mem_filter, decide_eq_true_eq] at he
    exact he.2
  · intro reg hreg
    simp only [List.mem_filter, decide_eq_true_eq] at hreg
    exact hreg.2
  · intro p hp hmem
    simp only [List.mem_filter, decide_eq_true_eq] at hmem
    exact hmem.2 hp
  · unfold handleGetEvent
    rw [if_neg hne]
    have hnone : findEvent
        { db with
          events := db.events.filter (fun e => ¬ e.id = eventId),
          registrations :=
            db.registrations.filter (fun r => ¬ r.eventId = eventId),
          imageFiles :=
            db.imageFiles.filter
              (fun p => ¬ p ∈ parseImages ev.images) } eventId = none := by
      unfold findEvent
      rw [List.find?_eq_none]
      intro e he
      simp only [List.mem_filter, decide_eq_true_eq] at he
      simp [he.2]
    rw [hnone]

def c7Event : Event :=
  { id := "e1", name := "Party", description := "fun", location := "Zurich",
    startsAt := 100, images := "[\"/uploads/event-images/a.png\"]",
    category := "social", ownerId := "alice", ownerName := "Alice",
    attendanceLimit := 2, registrationDeadline := 50 }

def c7Db : Db :=
  { events := [c7Event],
    registrations := [⟨"u1", "e1", 10⟩],
    imageFiles := ["/uploads/event-images/a.png"] }

theorem c7_delete_spec_witness :
    (handleDeleteEvent c7Db "alice" "e1").1 = .deleted ∧
    (∀ e ∈ (handleDeleteEvent c7Db "alice" "e1").2.events, e.id ≠ "e1") ∧
    (∀ reg ∈ (handleDeleteEvent c7Db "alice" "e1").2.registrations,
      reg.eventId ≠ "e1") ∧
    (∀ p ∈ parseImages c7Event.images,
      p ∉ (handleDeleteEvent c7Db "alice" "e1").2.imageFiles) ∧
    handleGetEvent (handleDeleteEvent c7Db "alice" "e1").2 "e1" =
      .notFound :=
  c7_delete_spec c7Db "alice" "e1" c7Event (by decide) rfl rfl

/-- C8: for every successful Update: if the request supplies one or more
new images, the stored image list afterwards is exactly the new images
(the previous set is fully replaced); if it supplies none, the stored
image list is unchanged; and the store holds the returned event in place
of the old one. -/
theorem c8_update_images (db : Db) (callerId name eventId : String)
    (d : EventDraft) (imgs : List String) (now : Int) (ev e' : Event)
    (db' : Db)
    (hfind : findEvent db eventId = some ev)
    (h : handleUpdateEvent db callerId name eventId d imgs now =
      (.updatedEvent e', db')) :
    (imgs ≠ [] → parseImages e'.images = imgs.map imagePath) ∧
    (imgs = [] → parseImages e'.images = parseImages ev.images) ∧
    db'.events =
      db.events.map (fun e => if e.id = eventId then e' else e) := by
  rcases handleUpdateEvent_cases db callerId name eventId d imgs now with
    ⟨hE, houtcome⟩ | ⟨ev2, st, dl, e'2, hf2, hc, hid, how, hst, hdl, hv,
      hide, hstval, hdlval, hlim, himg, hE⟩
  · rw [h] at houtcome
    rcases houtcome with ⟨msg, h1⟩ | h1 | h1 <;> simp at h1
  · rw [h] at hE
    simp only [Prod.mk.injEq, EventResponse.updatedEvent.injEq] at hE
    obtain ⟨rfl, rfl⟩ := hE
    rw [hfind] at hf2
    obtain rfl : ev = ev2 := by injection hf2
    refine ⟨?_, ?_, rfl⟩
    · intro hne
      rw [himg, if_pos hne, parseImages_stringifyImages]
    · intro heq
      rw [himg, if_neg (by simp [heq]), parseImages_stringifyImages]

def c8Event : Event :=
  { id := "e1", name := "Party", description := "fun", location := "Zurich",
    startsAt := 100, images := "[]",
    category := "social", ownerId := "alice", ownerName := "Alice",
    attendanceLimit := 2, registrationDeadline := 50 }

def c8Db : Db :=
  { events := [c8Event],
    registrations := [],
    imageFiles := ["/uploads/event-images/a.png"] }

def c8Draft : EventDraft :=
  { name := "Party2", description := "fun2", location := "Bern",
    time := some 200, eventOwner := "Alice", category := "social",
    attendanceLimit := 3, registrationDeadline := some 150 }

def c8Updated : Event :=
  { id := "e1", name := "Party2", description := "fun2", location := "Bern",
    startsAt := 200, images := "[\"/uploads/event-images/new.png\"]",
    category := "social", ownerId := "alice", ownerName := "Alice",
    attendanceLimit := 3, registrationDeadline := 150 }

def c8Db' : Db :=
  { events := [c8Updated],
    registrations := [],
    imageFiles := ["/uploads/event-images/a.png",
      "/uploads/event-images/new.png"] }

theorem c8_update_images_witness :
    parseImages c8Updated.images = ["new.png"].map imagePath ∧
    c8Db'.events =
      c8Db.events.map (fun e => if e.id = "e1" then c8Updated else e) := by
  have h := c8_update_images c8Db "alice" "Alice" "e1" c8Draft ["new.png"]
    10 c8Event c8Updated c8Db' rfl (by decide)
  exact ⟨h.1 (by simp), h.2.2⟩

/-! ## C2: capacity invariant -/

def c2Draft : EventDraft :=
  { name := "Party", description := "fun", location := "Zurich",
    time := some 100, eventOwner := "Alice", category := "social",
    attendanceLimit := 2, registrationDeadline := some 50 }

def c2Draft1 : EventDraft := { c2Draft with attendanceLimit := 1 }

/-- The state reached by: create an event with limit 2, register two
users, then an owner Update lowering the limit to 1. Every step is an
operation of the system, so this state is reachable. -/
def c2Db : Db :=
  (handleUpdateEvent
    (register
      (register
        (handleCreateEvent ⟨[], [], []⟩ "alice" "Alice" c2Draft [] "e1" 0).2
        "e1" "u1" 10).2
      "e1" "u2" 10).2
    "alice" "Alice" "e1" c2Draft1 [] 10).2

/-- C2 counterexample: the state `c2Db`, reachable by create (limit 2),
two successful registrations and an owner update lowering the limit to 1,
stores an event whose registration count (2) exceeds its attendanceLimit
(1) — the update handler never checks the new limit against the current
count. -/
theorem c2_counterexample :
    ∃ e ∈ c2Db.events,
      (e.attendanceLimit : Int) < (registrationCount c2Db e.id : Int) := by
  decide

theorem count_zero_of_no_event (db : Db) (horph : NoOrphans db)
    {newId : String} (hfresh : findEvent db newId = none) :
    registrationCount db newId = 0 := by
  unfold registrationCount
  rw [List.length_eq_zero, List.filter_eq_nil]
  intro r hr
  simp only [decide_eq_true_eq]
  intro hcontra
  obtain ⟨e2, he2, hid⟩ := horph r hr
  unfold findEvent at hfresh
  rw [List.find?_eq_none] at hfresh
  exact hfresh e2 he2 (by simp [hid, hcontra])

theorem register_preserves (db : Db) (hcap : CapacityOk db)
    (horph : NoOrphans db) (hu : UniqueIds db) (eventId userId : String)
    (now : Int) :
    CapacityOk (register db eventId userId now).2 ∧
    NoOrphans (register db eventId userId now).2 ∧
    UniqueIds (register db eventId userId now).2 := by
  rcases register_cases db eventId userId now with hE | ⟨ev, hf, hlt, hE⟩
  · rw [hE]; exact ⟨hcap, horph, hu⟩
  · rw [hE]
    refine ⟨?_, ?_, hu⟩
    · intro e he
      by_cases hid : e.id = eventId
      · obtain rfl : e = ev := findEvent_unique hu hf he hid
        rw [hid, registrationCount_append]
        push_cast
        omega
      · rw [registrationCount_append_ne db userId eventId e.id now hid]
        exact hcap e he
    · intro r hr
      simp only [List.mem_append, List.mem_singleton] at hr
      rcases hr with hr | rfl
      · exact horph r hr
      · exact ⟨ev, (findEvent_mem hf).1, (findEvent_mem hf).2⟩

theorem create_preserves (db : Db) (hcap : CapacityOk db)
    (horph : NoOrphans db) (hu : UniqueIds db) (callerId name : String)
    (d : EventDraft) (imgs : List String) (newId : String) (now : Int)
    (hfresh : findEvent db newId = none) :
    CapacityOk (handleCreateEvent db callerId name d imgs newId now).2 ∧
    NoOrphans (handleCreateEvent db callerId name d imgs newId now).2 ∧
    UniqueIds (handleCreateEvent db callerId name d imgs newId now).2 := by
  rcases handleCreateEvent_cases db callerId name d imgs newId now with
    ⟨msg, hE⟩ | ⟨st, dl, e, hst, hdl, hc, hv, hide, hstval, hdlval, hlim,
      himg, hE⟩
  · rw [hE]; exact ⟨hcap, horph, hu⟩
  · have hE2 : (handleCreateEvent db callerId name d imgs newId now).2 =
        { db with
          events := db.events ++ [e],
          imageFiles := db.imageFiles ++ imgs.map imagePath } := by
      rw [hE]
    rw [hE2]
    have hzero : registrationCount db newId = 0 :=
      count_zero_of_no_event db horph hfresh
    have hfr : ∀ a ∈ db.events, a.id ≠ newId := by
      intro a ha
      unfold findEvent at hfresh
      rw [List.find?_eq_none] at hfresh
      have := hfresh a ha
      simpa using this
    refine ⟨?_, ?_, ?_⟩
    · intro x hx
      simp only [List.mem_append, List.mem_singleton] at hx
      rcases hx with hx | rfl
      · exact hcap x hx
      · rw [hide]
        have h0 : registrationCount
            { db with
              events := db.events ++ [x],
              imageFiles := db.imageFiles ++ imgs.map imagePath } newId =
            0 := hzero
        rw [h0, hlim]
        have := schemaCheck_limit hc
        push_cast
        omega
    · intro r hr
      obtain ⟨e2, he2, hid2⟩ := horph r hr
      exact ⟨e2, List.mem_append_left _ he2, hid2⟩
    · show List.Pairwise (fun a b : Event => a.id ≠ b.id)
        (db.events ++ [e])
      rw [List.pairwise_append]
      refine ⟨hu, List.pairwise_singleton _ _, ?_⟩
      intro a ha b hb
      simp only [List.mem_singleton] at hb
      subst hb
      rw [hide]
      exact hfr a ha

theorem delete_preserves (db : Db) (hcap : CapacityOk db)
    (horph : NoOrphans db) (hu : UniqueIds db) (callerId eventId : String) :
    CapacityOk (handleDeleteEvent db callerId eventId).2 ∧
    NoOrphans (handleDeleteEvent db callerId eventId).2 ∧
    UniqueIds (handleDeleteEvent db callerId eventId).2 := by
  rcases handleDeleteEvent_cases db callerId eventId with hE | ⟨ev, hf, how,
    hE⟩
  · rw [hE]; exact ⟨hcap, horph, hu⟩
  · have hE2 : (handleDeleteEvent db callerId eventId).2 =
        { db with
          events := db.events.filter (fun e => ¬ e.id = eventId),
          registrations :=
            db.registrations.filter (fun r => ¬ r.eventId = eventId),
          imageFiles :=
            db.imageFiles.filter
              (fun p => ¬ p ∈ parseImages ev.images) } := by
      rw [hE]
    rw [hE2]
    refine ⟨?_, ?_, ?_⟩
    · intro x hx
      simp only [List.mem_filter, decide_eq_true_eq] at hx
      have hle : registrationCount
          { db with
            events := db.events.filter (fun e => ¬ e.id = eventId),
            registrations :=
              db.registrations.filter (fun r => ¬ r.eventId = eventId),
            imageFiles :=
              db.imageFiles.filter
                (fun p => ¬ p ∈ parseImages ev.images) } x.id ≤
          registrationCount db x.id := by
        unfold registrationCount
        exact List.Sublist.length_le
          (List.Sublist.filter _ (List.filter_sublist _))
      have := hcap x hx.1
      omega
    · intro r hr
      simp only [List.mem_filter, decide_eq_true_eq] at hr
      obtain ⟨e2, he2, hid2⟩ := horph r hr.1
      refine ⟨e2, ?_, hid2⟩
      simp only [List.mem_filter, decide_eq_true_eq]
      exact ⟨he2, by rw [hid2]; exact hr.2⟩
    · exact List.Pairwise.sublist (List.filter_sublist _) hu

theorem update_preserves (db : Db) (hcap : CapacityOk db)
    (horph : NoOrphans db) (hu : UniqueIds db)
    (callerId name eventId : String) (d : EventDraft) (imgs : List String)
    (now : Int)
    (hlimit : (registrationCount db eventId : Int) ≤ d.attendanceLimit) :
    CapacityOk (handleUpdateEvent db callerId name eventId d imgs now).2 ∧
    NoOrphans (handleUpdateEvent db callerId name eventId d imgs now).2 ∧
    UniqueIds (handleUpdateEvent db callerId name eventId d imgs now).2 := by
  rcases handleUpdateEvent_cases db callerId name eventId d imgs now with
    ⟨hE, _⟩ | ⟨ev, st, dl, e', hf, hc, hid, how, hst, hdl, hv, hide,
      hstval, hdlval, hlim, himg, hE⟩
  · rw [hE]; exact ⟨hcap, horph, hu⟩
  · have hE2 : (handleUpdateEvent db callerId name eventId d imgs now).2 =
        { db with
          events :=
            db.events.map (fun e => if e.id = eventId then e' else e),
          imageFiles :=
            if imgs ≠ [] then
              (db.imageFiles.filter
                (fun p => ¬ p ∈ parseImages ev.images)) ++
                imgs.map imagePath
            else db.imageFiles } := by
      rw [hE]
    rw [hE2]
    have hevid : ev.id = eventId := (findEvent_mem hf).2
    have hfid : ∀ y : Event,
        (if y.id = eventId then e' else y).id = y.id := by
      intro y
      by_cases hy : y.id = eventId
      · rw [if_pos hy, hide, hevid, hy]
      · rw [if_neg hy]
    refine ⟨?_, ?_, ?_⟩
    · intro x hx
      simp only [List.mem_map] at hx
      obtain ⟨y, hy, rfl⟩ := hx
      by_cases hyid : y.id = eventId
      · rw [if_pos hyid]
        have hEid : e'.id = eventId := hide.trans hevid
        rw [hEid, hlim]
        exact hlimit
      · rw [if_neg hyid]
        exact hcap y hy
    · intro r hr
      obtain ⟨e2, he2, hid2⟩ := horph r hr
      exact ⟨if e2.id = eventId then e' else e2,
        List.mem_map_of_mem _ he2, by rw [hfid]; exact hid2⟩
    · show List.Pairwise (fun a b : Event => a.id ≠ b.id)
        (db.events.map (fun e => if e.id = eventId then e' else e))
      rw [List.pairwise_map]
      apply hu.imp
      intro a b hab
      rw [hfid, hfid]
      exact hab

/-- C2 amended: in a store whose events have unique ids, no orphan
registrations and counts within limits, every operation preserves
"registrations never exceed attendanceLimit" — Register by construction,
Create for a fresh event id, Delete unconditionally — except that an
owner Update is only safe when its new attendanceLimit is at least the
event's current registration count: the handler does not check this, and
an Update lowering the limit below the current count produces a state
where the count exceeds the limit (see the counterexample). -/
theorem c2_amended (db : Db) (hcap : CapacityOk db) (horph : NoOrphans db)
    (hu : UniqueIds db) :
    (∀ eventId userId now,
      CapacityOk (register db eventId userId now).2 ∧
      NoOrphans (register db eventId userId now).2 ∧
      UniqueIds (register db eventId userId now).2) ∧
    (∀ callerId name d imgs newId now, findEvent db newId = none →
      CapacityOk (handleCreateEvent db callerId name d imgs newId now).2 ∧
      NoOrphans (handleCreateEvent db callerId name d imgs newId now).2 ∧
      UniqueIds (handleCreateEvent db callerId name d imgs newId now).2) ∧
    (∀ callerId eventId,
      CapacityOk (handleDeleteEvent db callerId eventId).2 ∧
      NoOrphans (handleDeleteEvent db callerId eventId).2 ∧
      UniqueIds (handleDeleteEvent db callerId eventId).2) ∧
    (∀ callerId name eventId d imgs now,
      (registrationCount db eventId : Int) ≤ d.attendanceLimit →
      CapacityOk (handleUpdateEvent db callerId name eventId d imgs now).2 ∧
      NoOrphans (handleUpdateEvent db callerId name eventId d imgs now).2 ∧
      UniqueIds (handleUpdateEvent db callerId name eventId d imgs now).2) :=
  ⟨fun eventId userId now =>
    register_preserves db hcap horph hu eventId userId now,
   fun callerId name d imgs newId now hfresh =>
    create_preserves db hcap horph hu callerId name d imgs newId now hfresh,
   fun callerId eventId =>
    delete_preserves db hcap horph hu callerId eventId,
   fun callerId name eventId d imgs now hlimit =>
    update_preserves db hcap horph hu callerId name eventId d imgs now
      hlimit⟩

def c2WDb : Db := { events := [], registrations := [], imageFiles := [] }

theorem c2_amended_witness :
    CapacityOk (register c2WDb "e1" "u1" 10).2 ∧
    NoOrphans (register c2WDb "e1" "u1" 10).2 ∧
    UniqueIds (register c2WDb "e1" "u1" 10).2 :=
  (c2_amended c2WDb (by intro e he; simp [c2WDb] at he)
    (by intro r hr; simp [c2WDb] at hr)
    List.Pairwise.nil).1 "e1" "u1" 10

/-! ## Account registration (the universityEmail-keyed auth router,
src/unnamed/part_000, with the UNIQUE universityEmail column of
scripts/init-db.ts) -/

/-- Model of JavaScript `String.prototype.split` with a one-character
separator: `"a@b@c".split("@") = ["a","b","c"]`, `"".split("@") = [""]`.
(Lean's `String.splitOn` walks byte positions and does not reduce in the
kernel, so the embedding uses this equivalent list-based definition.) -/
def splitCharAux (sep : Char) : List Char → List Char → List (List Char)
  | [], acc => [acc.reverse]
  | c :: rest, acc =>
    if c = sep then acc.reverse :: splitCharAux sep rest []
    else splitCharAux sep rest (c :: acc)

def jsSplitChar (sep : Char) (s : String) : List String :=
  (splitCharAux sep s.data []).map (fun l => ⟨l⟩)

/-- Model of `String.prototype.toLowerCase` (ASCII range, which covers
the configured domains and stored emails). -/
def jsToLower (s : String) : String :=
  ⟨s.data.map Char.toLower⟩

/-- Model of `isAllowedDomain` (src/unnamed/part_000 lines 34-37): the
part after the first `@`, lowercased, must equal the configured
ALLOWED_EMAIL_DOMAIN, lowercased. -/
def isAllowedDomain (allowedDomain email : String) : Bool :=
  match (jsSplitChar '@' email).get? 1 with
  | none => false
  | some dpart => jsToLower dpart = jsToLower allowedDomain

/-- Approximate model of zod's `.email()` format check: one `@` with
nonempty parts. The claims do not depend on the exact e-mail grammar,
only on the domain extraction above. -/
def looksLikeEmail (s : String) : Bool :=
  match jsSplitChar '@' s with
  | [lpart, dpart] => 1 ≤ lpart.length && 1 ≤ dpart.length
  | _ => false

structure User where
  id : String
  passwordHash : String
  fullName : String
  firstName : Option String
  lastName : Option String
  age : Option Int
  location : Option String
  fieldOfStudies : Option String
  universityEmail : String
  interests : Option String
  profileImageUrl : Option String
deriving DecidableEq, Repr

/-- The parsed multipart body of `POST /auth/register` after the zod
transforms. `profileImageFile` is the filename multer stored, when a
picture was uploaded. -/
structure RegisterInput where
  fullName : String
  password : String
  age : Option Int
  location : Option String
  fieldOfStudies : Option String
  universityEmail : String
  interests : Option (List String)
  profileImageFile : Option String
deriving DecidableEq, Repr

/-- Model of `registerSchema.safeParse` succeeding
(src/unnamed/part_000 lines 16-27). -/
def registerSchemaCheck (i : RegisterInput) : Bool :=
  2 ≤ i.fullName.length && i.fullName.length ≤ 120 &&
  6 ≤ i.password.length &&
  (match i.age with
   | none => true
   | some a => 0 < a && a ≤ 120) &&
  (match i.location with
   | none => true
   | some l => l.length ≤ 120) &&
  (match i.fieldOfStudies with
   | none => true
   | some f => f.length ≤ 120) &&
  looksLikeEmail i.universityEmail &&
  (match i.interests with
   | none => true
   | some l =>
     l.length ≤ 10 && l.all (fun s => 1 ≤ s.length && s.length ≤ 40))

/-- Split on runs of whitespace: model of `split(/\s+/)` as applied to a
trimmed string (no empty parts except on the empty string, where the JS
result `[""]` and ours `[]` both yield firstName = null below). -/
def splitWsAux : List Char → List Char → List (List Char)
  | [], acc => if acc = [] then [] else [acc.reverse]
  | c :: rest, acc =>
    if c.isWhitespace then
      if acc = [] then splitWsAux rest []
      else acc.reverse :: splitWsAux rest []
    else splitWsAux rest (c :: acc)

def splitWs (s : String) : List String :=
  (splitWsAux s.data []).map (fun l => ⟨l⟩)

inductive AuthResponse where
  | validationError
  | badDomain
  | conflict
  | created (u : User)
deriving DecidableEq, Repr

/-- The user record `handleRegister` inserts: lowercased email, first and
last name from `fullName.trim().split(/\s+/)`, interests joined with
commas, the uploaded picture's public path. -/
def mkRegisteredUser (i : RegisterInput) (newId hash : String) : User :=
  let parts := splitWs (jsTrim i.fullName)
  let firstName :=
    match parts.head? with
    | none => none
    | some f => if f = "" then none else some f
  let lastName :=
    let joined := String.intercalate " " parts.tail
    if joined = "" then none else some joined
  { id := newId
    passwordHash := hash
    fullName := i.fullName
    firstName := firstName
    lastName := lastName
    age := i.age
    location := i.location
    fieldOfStudies := i.fieldOfStudies
    universityEmail := jsToLower i.universityEmail
    interests := i.interests.map (fun l => String.intercalate "," l)
    profileImageUrl :=
      i.profileImageFile.map (fun f => "/uploads/profile-images/" ++ f) }

/-- Model of `handleRegister` (src/unnamed/part_000 lines 87-148): parse
the body, lowercase the university email, check the allowed domain, check
no user already holds that email (`findUnique` against the UNIQUE
`universityEmail` column), then create the account. `newId` is the id
Prisma assigns and `hash` the bcrypt hash of the password. -/
def handleRegister (users : List User) (allowedDomain : String)
    (i : RegisterInput) (newId hash : String) : AuthResponse × List User :=
  if ¬ registerSchemaCheck i then (.validationError, users)
  else
    let universityEmail := jsToLower i.universityEmail
    if ¬ isAllowedDomain allowedDomain universityEmail then
      (.badDomain, users)
    else if users.any (fun u => u.universityEmail = universityEmail) then
      (.conflict, users)
    else
      let u := mkRegisteredUser i newId hash
      (.created u, users ++ [u])

/-- Outcome analysis of `handleRegister`: either a rejection that stores
nothing, or every pre-insert check passed and the new user (with the
lowercased email) is appended. -/
theorem handleRegister_cases (users : List User) (allowedDomain : String)
    (i : RegisterInput) (newId hash : String) :
    ((handleRegister users allowedDomain i newId hash).2 = users ∧
      ∀ u, (handleRegister users allowedDomain i newId hash).1 ≠
        .created u) ∨
    (registerSchemaCheck i = true ∧
     isAllowedDomain allowedDomain (jsToLower i.universityEmail) = true ∧
     users.any
       (fun v => v.universityEmail = jsToLower i.universityEmail) = false ∧
     ∃ u, u.universityEmail = jsToLower i.universityEmail ∧
       handleRegister users allowedDomain i newId hash =
         (.created u, users ++ [u])) := by
  unfold handleRegister
  by_cases hs : registerSchemaCheck i = true
  · by_cases hdom : isAllowedDomain allowedDomain
        (jsToLower i.universityEmail) = true
    · by_cases hany : users.any
          (fun v => v.universityEmail = jsToLower i.universityEmail) = true
      · left
        constructor
        · simp [hs, hdom, hany]
        · intro u
          simp [hs, hdom, hany]
      · right
        refine ⟨hs, hdom, by simpa using hany, ?_⟩
        refine ⟨mkRegisteredUser i newId hash, rfl, ?_⟩
        simp [hs, hdom, hany]
    · left
      constructor
      · simp [hs, hdom]
      · intro u
        simp [hs, hdom]
  · left
    constructor
    · simp [hs]
    · intro u
      simp [hs]

/-- C9: at account registration the university email is normalised to
lowercase and must match the configured allowed domain; a registration
attempt with a university email already in use, or outside the domain, is
rejected without creating a user; and pairwise distinctness of stored
university emails is preserved by registration, so emails differ across
every pair of stored users. -/
theorem c9_unique_email_registration (users : List User)
    (allowedDomain : String) (i : RegisterInput) (newId hash : String) :
    (registerSchemaCheck i = true →
      isAllowedDomain allowedDomain (jsToLower i.universityEmail) = false →
      handleRegister users allowedDomain i newId hash =
        (.badDomain, users)) ∧
    (registerSchemaCheck i = true →
      isAllowedDomain allowedDomain (jsToLower i.universityEmail) = true →
      (∃ u ∈ users, u.universityEmail = jsToLower i.universityEmail) →
      handleRegister users allowedDomain i newId hash =
        (.conflict, users)) ∧
    (∀ u users', handleRegister users allowedDomain i newId hash =
        (.created u, users') →
      u.universityEmail = jsToLower i.universityEmail ∧
      isAllowedDomain allowedDomain u.universityEmail = true ∧
      (∀ v ∈ users, v.universityEmail ≠ u.universityEmail) ∧
      users' = users ++ [u]) ∧
    (List.Pairwise (fun a b => a.universityEmail ≠ b.universityEmail)
        users →
      List.Pairwise (fun a b => a.universityEmail ≠ b.universityEmail)
        (handleRegister users allowedDomain i newId hash).2) := by
  refine ⟨?_, ?_, ?_, ?_⟩
  · intro hs hdom
    simp [handleRegister, hs, hdom]
  · intro hs hdom hex
    obtain ⟨u, hu, heq⟩ := hex
    have hany : users.any
        (fun v => v.universityEmail = jsToLower i.universityEmail) = true :=
      List.any_eq_true.mpr ⟨u, hu, by simp [heq]⟩
    simp [handleRegister, hs, hdom, hany]
  · intro u users' h
    rcases handleRegister_cases users allowedDomain i newId hash with
      ⟨h2, hno⟩ | ⟨hs, hdom, hany, u2, hmail, hE⟩
    · exact (hno u (by rw [h])).elim
    · rw [h] at hE
      simp only [Prod.mk.injEq, AuthResponse.created.injEq] at hE
      obtain ⟨rfl, rfl⟩ := hE
      refine ⟨hmail, by rw [hmail]; exact hdom, ?_, rfl⟩
      intro v hv
      rw [hmail]
      rw [List.any_eq_false] at hany
      have := hany v hv
      simpa using this
  · intro hp
    rcases handleRegister_cases users allowedDomain i newId hash with
      ⟨h2, hno⟩ | ⟨hs, hdom, hany, u2, hmail, hE⟩
    · rw [h2]; exact hp
    · have hE2 : (handleRegister users allowedDomain i newId hash).2 =
          users ++ [u2] := by rw [hE]
      rw [hE2, List.pairwise_append]
      refine ⟨hp, List.pairwise_singleton _ _, ?_⟩
      intro a ha b hb
      simp only [List.mem_singleton] at hb
      subst hb
      rw [hmail]
      rw [List.any_eq_false] at hany
      have := hany a ha
      simpa using this

def c9Input : RegisterInput :=
  { fullName := "Jane Doe", password := "secret1", age := some 21,
    location := some "Zurich", fieldOfStudies := some "CS",
    universityEmail := "Jane.Doe@UZH.ch", interests := some ["Hiking"],
    profileImageFile := none }

def c9User : User := mkRegisteredUser c9Input "u0" "h0"

theorem c9_unique_email_registration_witness :
    handleRegister [c9User] "uzh.ch" c9Input "u1" "h1" =
      (.conflict, [c9User]) :=
  (c9_unique_email_registration [c9User] "uzh.ch" c9Input "u1" "h1").2.1
    (by decide) (by decide) ⟨c9User, by simp, by decide⟩

end EventTool
